import Mathlib

/-!
Verification of the MLX reranker script (`src/reranking/mlx_reranker.py`).

The script is a synchronous CLI shim: it parses a query, a JSON array of
documents and a `top_k`, "loads" a model (whose handles are never used),
scores each document against the query by Jaccard similarity of
lower-cased whitespace tokens, sorts descending by score with Python's
stable sort, truncates with `results[:top_k]` slice semantics, and prints
JSON.  We embed that pipeline shallowly:

* Python floats are modelled as exact rationals (`ℚ`); every score is a
  ratio of two small naturals.  Division by zero in `ℚ` is `0`, matching
  the code's explicit `else 0.0` branch.
* The external library call `load(model_path)` is a parameter
  `load : String → Except String (Model × Tokenizer)`: its outcome (a pair
  of opaque handles, or an exception message) is all the script observes.
* Python exceptions become `Except String`; an f-string message is built
  with `++`.
* Python's `list.sort(key=..., reverse=True)` is a stable descending sort;
  we embed it as the (extensionally equal, since stable sorts agree) head
  insertion sort `sortDesc`, where an element is placed before the first
  element whose score does not exceed it.
-/

namespace Saga

/-- Python `str.lower()`: lower-case every character. -/
def pyLower (s : String) : String := ⟨s.data.map Char.toLower⟩

/-- Python `str.split()` with no argument, over the character list: split on
runs of whitespace, dropping empty pieces (no leading/trailing empties).
`acc` holds the characters of the token in progress, reversed. -/
def splitWs : List Char → List Char → List String
  | [], acc => if acc.isEmpty then [] else [⟨acc.reverse⟩]
  | c :: cs, acc =>
    if c.isWhitespace then
      (if acc.isEmpty then splitWs cs [] else ⟨acc.reverse⟩ :: splitWs cs [])
    else splitWs cs (c :: acc)

/-- Tokens of a string: models `set(s.lower().split())` — lower-case, split
on whitespace runs, collect into a set. -/
def pyTokens (s : String) : Finset String :=
  (splitWs (pyLower s).data []).toFinset

/-- Per-document score, lines 59–63 of `mlx_reranker.py`:
`overlap / total if total > 0 else 0.0` with
`overlap = len(query_words & doc_words)`, `total = len(query_words | doc_words)`. -/
def score (query doc : String) : ℚ :=
  let query_words := pyTokens query
  let doc_words := pyTokens doc
  let overlap := (query_words ∩ doc_words).card
  let total := (query_words ∪ doc_words).card
  if 0 < total then (overlap : ℚ) / (total : ℚ) else 0

/-- One entry of the result list: the dict `{"index": idx, "score": float(score)}`. -/
structure ScoreResult where
  index : Nat
  score : ℚ
deriving Repr, DecidableEq

/-- The per-document loop (lines 55–67): for each index `idx` and document
`doc`, record `(idx, score query doc)` in input order. -/
def scoreDocs (query : String) (documents : List String) : List ScoreResult :=
  documents.enum.map (fun p => ⟨p.1, score query p.2⟩)

/-- Insert an element into a list already sorted by score descending,
before the first element whose score it reaches: the head insertion step
of the stable descending sort. -/
def insertDesc (x : ScoreResult) : List ScoreResult → List ScoreResult
  | [] => [x]
  | y :: ys => if y.score ≤ x.score then x :: y :: ys else y :: insertDesc x ys

/-- Stable sort by score descending: models
`results.sort(key=lambda x: x["score"], reverse=True)` (line 70).  Python's
sort is stable and `reverse=True` keeps equal-key elements in original
order; head insertion with a non-strict comparison computes the same
(unique) stable descending permutation. -/
def sortDesc : List ScoreResult → List ScoreResult
  | [] => []
  | x :: xs => insertDesc x (sortDesc xs)

/-- Python slice `l[:k]` for an arbitrary integer `k`: for `k ≥ 0` the
first `k` elements, for `k < 0` all but the last `|k|` elements
(`stop = max(0, len(l) + k)`). -/
def pyTake (l : List ScoreResult) (k : Int) : List ScoreResult :=
  if 0 ≤ k then l.take k.toNat else l.take (l.length - (-k).toNat)

section Pipeline

variable {Model Tokenizer : Type}

/-- Lines 20–29: `load_model` calls the external `load` and wraps any
exception in a `RuntimeError` carrying the path and the cause
(`f"Failed to load model from \x7bmodel_path\x7d: \x7be\x7d"`). -/
def load_model (load : String → Except String (Model × Tokenizer))
    (model_path : String) : Except String (Model × Tokenizer) :=
  match load model_path with
  | .ok mt => .ok mt
  | .error e => .error ("Failed to load model from " ++ model_path ++ ": " ++ e)

/-- Lines 32–75: `rerank_documents`.  Loads the model (binding handles that
the scoring never reads), scores every document, stable-sorts descending,
truncates with `results[:top_k]`.  Any exception inside the `try` block —
here only a load failure, since the scoring arithmetic is total — is
wrapped as `RuntimeError(f"Reranking failed: \x7be\x7d")`. -/
def rerank_documents (load : String → Except String (Model × Tokenizer))
    (query : String) (documents : List String) (model_path : String)
    (top_k : Int) : Except String (List ScoreResult) :=
  match load_model load model_path with
  | .error e => .error ("Reranking failed: " ++ e)
  | .ok _modelTok =>
      let results := scoreDocs query documents
      .ok (pyTake (sortDesc results) top_k)

end Pipeline

/-- The JSON values `json.loads` can return. -/
inductive Json where
  | null
  | bool (b : Bool)
  | num (q : ℚ)
  | str (s : String)
  | arr (elems : List Json)
  | obj (fields : List (String × Json))

/-- Whether a decoded value is a JSON array (`isinstance(documents, list)`). -/
def Json.isArr : Json → Bool
  | .arr _ => true
  | _ => false

/-- Extract the elements of a JSON array of strings, if all elements are
strings (the only shape on which the scoring loop does not raise). -/
def Json.asStringList : Json → Option (List String)
  | .arr elems => elems.mapM (fun j => match j with | .str s => some s | _ => none)
  | _ => none

/-- Observable outcome of `main` (lines 78–111): either the success payload
printed to stdout as `\x7b"results": ...\x7d` with exit status 0, or an error
message printed to stderr as `\x7b"error": "<message>"\x7d` with exit status 1. -/
inductive MainOut where
  | success (results : List ScoreResult)
  | failure (message : String)
deriving Repr, DecidableEq

/-- What `main` prints on stdout: the result list on success, nothing on failure. -/
def MainOut.stdoutOf : MainOut → Option (List ScoreResult)
  | .success rs => some rs
  | .failure _ => none

/-- What `main` prints on stderr: nothing on success, the error message
(inside the single JSON error object) on failure. -/
def MainOut.stderrOf : MainOut → Option String
  | .success _ => none
  | .failure m => some m

/-- The process exit status set by `main`. -/
def MainOut.exitCodeOf : MainOut → Nat
  | .success _ => 0
  | .failure _ => 1

/-- Lines 88–111 of `main`, after argument parsing.  `documentsDecode` is
the outcome of `json.loads(args.documents)` (message of the
`json.JSONDecodeError` on failure); `elemErr` is the message of the
exception Python raises inside the scoring loop when a decoded array
element is not a string (e.g. an `AttributeError` from `doc.lower()`),
which the `try` in `rerank_documents` wraps.  A non-list decode raises
`ValueError("Documents must be a JSON array")`, caught by the generic
handler which prints `str(e)`. -/
def main_logic {Model Tokenizer : Type}
    (load : String → Except String (Model × Tokenizer))
    (query model_path : String) (top_k : Int)
    (documentsDecode : Except String Json) (elemErr : String) : MainOut :=
  match documentsDecode with
  | .error e => .failure ("Invalid JSON in documents: " ++ e)
  | .ok (.arr elems) =>
      match (Json.arr elems).asStringList with
      | some documents =>
          match rerank_documents load query documents model_path top_k with
          | .ok results => .success results
          | .error e => .failure e
      | none => .failure ("Reranking failed: " ++ elemErr)
  | .ok _ => .failure "Documents must be a JSON array"

/-! ### Helper lemmas about the stable descending sort -/

/-- Inserting an element permutes consing it. -/
theorem insertDesc_perm (x : ScoreResult) (l : List ScoreResult) :
    (insertDesc x l).Perm (x :: l) := by
  induction l with
  | nil => simp [insertDesc]
  | cons y ys ih =>
    by_cases h : y.score ≤ x.score
    · simp [insertDesc, h]
    · simp only [insertDesc, if_neg h]
      exact (ih.cons y).trans (List.Perm.swap x y ys)

/-- The sort permutes its input. -/
theorem sortDesc_perm (l : List ScoreResult) : (sortDesc l).Perm l := by
  induction l with
  | nil => simp [sortDesc]
  | cons x xs ih => exact (insertDesc_perm x (sortDesc xs)).trans (ih.cons x)

theorem mem_insertDesc {z x : ScoreResult} {l : List ScoreResult} :
    z ∈ insertDesc x l ↔ z = x ∨ z ∈ l := by
  rw [(insertDesc_perm x l).mem_iff, List.mem_cons]

theorem sortDesc_length (l : List ScoreResult) : (sortDesc l).length = l.length :=
  (sortDesc_perm l).length_eq

/-- The strict order the stable descending sort establishes on a list of
pairwise-distinct indices: higher score first, ties by lower original index
first. -/
def lexAfter (a b : ScoreResult) : Prop :=
  b.score < a.score ∨ (a.score = b.score ∧ a.index < b.index)

/-- Inserting an element whose index is below every index in the list
preserves the lexicographic invariant. -/
theorem pairwise_insertDesc {x : ScoreResult} {l : List ScoreResult}
    (hl : l.Pairwise lexAfter) (hx : ∀ y ∈ l, x.index < y.index) :
    (insertDesc x l).Pairwise lexAfter := by
  induction l with
  | nil => simp [insertDesc]
  | cons y ys ih =>
    rcases List.pairwise_cons.mp hl with ⟨hy, hys⟩
    by_cases h : y.score ≤ x.score
    · simp only [insertDesc, if_pos h]
      refine List.pairwise_cons.mpr ⟨?_, hl⟩
      intro z hz
      have hzs : z.score ≤ x.score := by
        rcases List.mem_cons.mp hz with rfl | hz2
        · exact h
        · rcases hy z hz2 with hlt | ⟨heq, _⟩
          · exact le_trans (le_of_lt hlt) h
          · exact le_trans (le_of_eq heq.symm) h
      rcases lt_or_eq_of_le hzs with hlt | heq
      · exact Or.inl hlt
      · exact Or.inr ⟨heq.symm, hx z hz⟩
    · simp only [insertDesc, if_neg h]
      refine List.pairwise_cons.mpr
        ⟨?_, ih hys (fun w hw => hx w (List.mem_cons_of_mem _ hw))⟩
      intro z hz
      rcases mem_insertDesc.mp hz with rfl | hz2
      · exact Or.inl (lt_of_not_le h)
      · exact hy z hz2

/-- Sorting a list of strictly increasing indices yields the lexicographic
order (score descending, original index ascending among equal scores): the
stability property of the sort. -/
theorem sortDesc_pairwise {l : List ScoreResult}
    (h : l.Pairwise fun a b => a.index < b.index) :
    (sortDesc l).Pairwise lexAfter := by
  induction l with
  | nil => simp [sortDesc]
  | cons x xs ih =>
    rcases List.pairwise_cons.mp h with ⟨hx, hxs⟩
    exact pairwise_insertDesc (ih hxs)
      (fun y hy => hx y ((sortDesc_perm xs).mem_iff.mp hy))

/-! ### Helper lemmas about the scoring loop and the pipeline -/

theorem scoreDocs_length (q : String) (docs : List String) :
    (scoreDocs q docs).length = docs.length := by
  simp [scoreDocs, List.enum_length]

/-- The scoring loop records strictly increasing indices. -/
theorem scoreDocs_pairwise (q : String) (docs : List String) :
    (scoreDocs q docs).Pairwise fun a b => a.index < b.index := by
  unfold scoreDocs
  rw [List.pairwise_map, List.pairwise_iff_getElem]
  intro i j hi hj hij
  simp only [List.getElem_enum]
  exact hij

/-- The indices recorded by the scoring loop are exactly `0, ..., n-1`. -/
theorem scoreDocs_map_index (q : String) (docs : List String) :
    (scoreDocs q docs).map (fun r => r.index) = List.range docs.length := by
  unfold scoreDocs
  rw [List.map_map]
  exact List.enum_map_fst docs

/-- When the external load succeeds, `rerank_documents` returns the sorted,
truncated score list. -/
theorem rerank_documents_ok {Model Tokenizer : Type}
    (load : String → Except String (Model × Tokenizer)) (query : String)
    (documents : List String) (model_path : String) (top_k : Int)
    (mt : Model × Tokenizer) (hload : load model_path = .ok mt) :
    rerank_documents load query documents model_path top_k
      = .ok (pyTake (sortDesc (scoreDocs query documents)) top_k) := by
  simp [rerank_documents, load_model, hload]

/-! ### The claims -/

/-- C1: for every query and document, the computed score equals the Jaccard
similarity `|A ∩ B| / |A ∪ B|` of the sets of lower-cased
whitespace-delimited tokens (with `x / 0 = 0` in `ℚ`, so the formula also
covers the `else 0.0` branch), is `0` when both token sets are empty, and
lies in `[0, 1]`. -/
theorem saga_C1 (query doc : String) :
    score query doc
        = ((pyTokens query ∩ pyTokens doc).card : ℚ)
          / ((pyTokens query ∪ pyTokens doc).card : ℚ)
      ∧ (pyTokens query = ∅ → pyTokens doc = ∅ → score query doc = 0)
      ∧ 0 ≤ score query doc ∧ score query doc ≤ 1 := by
  have hsub : (pyTokens query ∩ pyTokens doc).card
      ≤ (pyTokens query ∪ pyTokens doc).card :=
    Finset.card_le_card Finset.inter_subset_union
  unfold score
  by_cases htot : 0 < (pyTokens query ∪ pyTokens doc).card
  · rw [if_pos htot]
    refine ⟨rfl, ?_, ?_, ?_⟩
    · intro hq hd
      rw [hq, hd] at htot
      simp at htot
    · exact div_nonneg (by positivity) (by positivity)
    · rw [div_le_one (by exact_mod_cast htot)]
      exact_mod_cast hsub
  · rw [if_neg htot]
    have h0 : (pyTokens query ∪ pyTokens doc).card = 0 := Nat.eq_zero_of_not_pos htot
    refine ⟨?_, fun _ _ => rfl, le_refl 0, zero_le_one⟩
    rw [h0]
    simp

/-- C1 witness: at `query = "" `, `doc = ""` both token sets are empty and
the score is `0`. -/
theorem saga_C1_witness : pyTokens "" = ∅ ∧ score "" "" = 0 :=
  ⟨by decide, (saga_C1 "" "").2.1 (by decide) (by decide)⟩

/-- C8: the per-document score is symmetric in its two arguments, by
commutativity of set intersection and union. -/
theorem saga_C8 (q d : String) : score q d = score d q := by
  simp only [score]
  rw [Finset.inter_comm, Finset.union_comm]

/-- Truncation returns a sublist of the sorted list, whatever the sign of `k`. -/
theorem pyTake_sublist (l : List ScoreResult) (k : Int) : (pyTake l k).Sublist l := by
  unfold pyTake
  split
  · exact List.take_sublist _ _
  · exact List.take_sublist _ _

/-- C2: when the external load succeeds and `top_k ≥ 0`, the result list has
length exactly `min top_k (number of documents)`; `top_k = 0` gives `min 0 _ = 0`. -/
theorem saga_C2 {Model Tokenizer : Type}
    (load : String → Except String (Model × Tokenizer)) (query : String)
    (documents : List String) (model_path : String) (top_k : Int)
    (mt : Model × Tokenizer) (hload : load model_path = .ok mt)
    (htop : 0 ≤ top_k) :
    ∃ rs, rerank_documents load query documents model_path top_k = .ok rs
      ∧ rs.length = min top_k.toNat documents.length := by
  refine ⟨_, rerank_documents_ok load query documents model_path top_k mt hload, ?_⟩
  rw [pyTake, if_pos htop, List.length_take, sortDesc_length, scoreDocs_length]

/-- C2 witness: three documents, `top_k = 2`, a load that succeeds: the
output has length `min 2 3 = 2`. -/
theorem saga_C2_witness :
    (0 : Int) ≤ 2
      ∧ ∃ rs, rerank_documents (fun _ => Except.ok ((), ()))
            "apple banana" ["apple banana cherry", "cherry date", "apple"]
            "model.bin" 2 = .ok rs
          ∧ rs.length
              = min (Int.toNat 2) ["apple banana cherry", "cherry date", "apple"].length :=
  ⟨by decide,
    saga_C2 (fun _ => Except.ok ((), ())) "apple banana"
      ["apple banana cherry", "cherry date", "apple"] "model.bin" 2
      ((), ()) rfl (by decide)⟩

/-- C3: when the external load succeeds and `top_k ≥ 0`, the result list is
sorted by score descending: each entry's score is at least its successor's. -/
theorem saga_C3 {Model Tokenizer : Type}
    (load : String → Except String (Model × Tokenizer)) (query : String)
    (documents : List String) (model_path : String) (top_k : Int)
    (mt : Model × Tokenizer) (hload : load model_path = .ok mt)
    (htop : 0 ≤ top_k) :
    ∃ rs, rerank_documents load query documents model_path top_k = .ok rs
      ∧ ∀ i (h : i + 1 < rs.length),
          (rs.get ⟨i + 1, h⟩).score ≤ (rs.get ⟨i, Nat.lt_of_succ_lt h⟩).score := by
  refine ⟨_, rerank_documents_ok load query documents model_path top_k mt hload, ?_⟩
  have hpw : (pyTake (sortDesc (scoreDocs query documents)) top_k).Pairwise lexAfter :=
    List.Pairwise.sublist (pyTake_sublist _ _)
      (sortDesc_pairwise (scoreDocs_pairwise query documents))
  intro i h
  have hij := List.pairwise_iff_getElem.mp hpw i (i + 1)
    (Nat.lt_of_succ_lt h) h (Nat.lt_succ_self i)
  simp only [List.get_eq_getElem]
  rcases hij with hlt | ⟨heq, _⟩
  · exact le_of_lt hlt
  · exact le_of_eq heq.symm

/-- C3 witness: the sortedness statement at a concrete successful run. -/
theorem saga_C3_witness :
    (0 : Int) ≤ 2
      ∧ ∃ rs, rerank_documents (fun _ => Except.ok ((), ()))
            "apple banana" ["apple banana cherry", "cherry date", "apple"]
            "model.bin" 2 = .ok rs
          ∧ ∀ i (h : i + 1 < rs.length),
              (rs.get ⟨i + 1, h⟩).score ≤ (rs.get ⟨i, Nat.lt_of_succ_lt h⟩).score :=
  ⟨by decide,
    saga_C3 (fun _ => Except.ok ((), ())) "apple banana"
      ["apple banana cherry", "cherry date", "apple"] "model.bin" 2
      ((), ()) rfl (by decide)⟩

/-- C4: when the external load succeeds and `top_k ≥ 0`, every index in the
result is a valid zero-based position in the input document list, and no
index occurs twice. -/
theorem saga_C4 {Model Tokenizer : Type}
    (load : String → Except String (Model × Tokenizer)) (query : String)
    (documents : List String) (model_path : String) (top_k : Int)
    (mt : Model × Tokenizer) (hload : load model_path = .ok mt)
    (htop : 0 ≤ top_k) :
    ∃ rs, rerank_documents load query documents model_path top_k = .ok rs
      ∧ (∀ r ∈ rs, r.index < documents.length)
      ∧ (rs.map fun r => r.index).Nodup := by
  refine ⟨_, rerank_documents_ok load query documents model_path top_k mt hload, ?_, ?_⟩
  all_goals
    have hperm : ((sortDesc (scoreDocs query documents)).map fun r => r.index).Perm
        (List.range documents.length) := by
      rw [← scoreDocs_map_index query documents]
      exact (sortDesc_perm _).map _
  · intro r hr
    have h1 : r.index ∈ (pyTake (sortDesc (scoreDocs query documents)) top_k).map
        (fun r => r.index) := List.mem_map_of_mem _ hr
    have h2 := ((pyTake_sublist _ top_k).map (fun r => r.index)).subset h1
    exact List.mem_range.mp (hperm.mem_iff.mp h2)
  · exact ((pyTake_sublist _ top_k).map (fun r => r.index)).nodup
      (hperm.nodup_iff.mpr (List.nodup_range _))

/-- C4 witness: index validity and distinctness at a concrete successful run. -/
theorem saga_C4_witness :
    (0 : Int) ≤ 2
      ∧ ∃ rs, rerank_documents (fun _ => Except.ok ((), ()))
            "apple banana" ["apple banana cherry", "cherry date", "apple"]
            "model.bin" 2 = .ok rs
          ∧ (∀ r ∈ rs,
              r.index < ["apple banana cherry", "cherry date", "apple"].length)
          ∧ (rs.map fun r => r.index).Nodup :=
  ⟨by decide,
    saga_C4 (fun _ => Except.ok ((), ())) "apple banana"
      ["apple banana cherry", "cherry date", "apple"] "model.bin" 2
      ((), ()) rfl (by decide)⟩

/-- C9: ties are broken deterministically and stably — among results with
equal scores, earlier positions in the output carry strictly smaller
original document indices, because results are built in input order and
sorted with a stable sort keyed only on score. -/
theorem saga_C9 {Model Tokenizer : Type}
    (load : String → Except String (Model × Tokenizer)) (query : String)
    (documents : List String) (model_path : String) (top_k : Int)
    (mt : Model × Tokenizer) (hload : load model_path = .ok mt)
    (htop : 0 ≤ top_k) :
    ∃ rs, rerank_documents load query documents model_path top_k = .ok rs
      ∧ ∀ i j (hi : i < rs.length) (hj : j < rs.length), i < j →
          (rs.get ⟨i, hi⟩).score = (rs.get ⟨j, hj⟩).score →
          (rs.get ⟨i, hi⟩).index < (rs.get ⟨j, hj⟩).index := by
  refine ⟨_, rerank_documents_ok load query documents model_path top_k mt hload, ?_⟩
  have hpw : (pyTake (sortDesc (scoreDocs query documents)) top_k).Pairwise lexAfter :=
    List.Pairwise.sublist (pyTake_sublist _ _)
      (sortDesc_pairwise (scoreDocs_pairwise query documents))
  intro i j hi hj hij heq
  have h := List.pairwise_iff_getElem.mp hpw i j hi hj hij
  simp only [List.get_eq_getElem] at heq ⊢
  rcases h with hlt | ⟨_, hidx⟩
  · rw [heq] at hlt
    exact absurd hlt (lt_irrefl _)
  · exact hidx

/-- C9 witness: the tie-break statement at a concrete successful run with
two equal-score documents. -/
theorem saga_C9_witness :
    (0 : Int) ≤ 3
      ∧ ∃ rs, rerank_documents (fun _ => Except.ok ((), ()))
            "apple" ["apple pie", "apple tart", "banana"] "model.bin" 3 = .ok rs
          ∧ ∀ i j (hi : i < rs.length) (hj : j < rs.length), i < j →
              (rs.get ⟨i, hi⟩).score = (rs.get ⟨j, hj⟩).score →
              (rs.get ⟨i, hi⟩).index < (rs.get ⟨j, hj⟩).index :=
  ⟨by decide,
    saga_C9 (fun _ => Except.ok ((), ())) "apple"
      ["apple pie", "apple tart", "banana"] "model.bin" 3
      ((), ()) rfl (by decide)⟩

/-- C10: for negative `top_k` the Python slice `results[:top_k]` drops the
last `|top_k|` entries: the result is the first `max(0, len + top_k)`
entries of the sorted list, not an empty list or an error. -/
theorem saga_C10 {Model Tokenizer : Type}
    (load : String → Except String (Model × Tokenizer)) (query : String)
    (documents : List String) (model_path : String) (top_k : Int)
    (mt : Model × Tokenizer) (hload : load model_path = .ok mt)
    (hneg : top_k < 0) :
    ∃ rs, rerank_documents load query documents model_path top_k = .ok rs
      ∧ rs = (sortDesc (scoreDocs query documents)).take
          (documents.length - (-top_k).toNat)
      ∧ rs.length = ((documents.length : Int) + top_k).toNat := by
  refine ⟨_, rerank_documents_ok load query documents model_path top_k mt hload, ?_, ?_⟩
  · rw [pyTake, if_neg (not_le.mpr hneg), sortDesc_length, scoreDocs_length]
  · rw [pyTake, if_neg (not_le.mpr hneg), List.length_take, sortDesc_length,
      scoreDocs_length]
    omega

/-- C10 witness: three documents and `top_k = -1` give the first two sorted
entries. -/
theorem saga_C10_witness :
    (-1 : Int) < 0
      ∧ ∃ rs, rerank_documents (fun _ => Except.ok ((), ()))
            "apple banana" ["apple banana cherry", "cherry date", "apple"]
            "model.bin" (-1) = .ok rs
          ∧ rs = (sortDesc (scoreDocs "apple banana"
              ["apple banana cherry", "cherry date", "apple"])).take
              (["apple banana cherry", "cherry date", "apple"].length - (Int.toNat (-(-1))))
          ∧ rs.length
              = ((["apple banana cherry", "cherry date", "apple"].length : Int) + (-1)).toNat :=
  ⟨by decide,
    saga_C10 (fun _ => Except.ok ((), ())) "apple banana"
      ["apple banana cherry", "cherry date", "apple"] "model.bin" (-1)
      ((), ()) rfl (by decide)⟩

/-- C5: an error in the underlying load is re-signalled by `load_model` with
the original path and cause in the message, and `rerank_documents` catches
that wrapped failure and returns a single `RerankError`-style message —
an error value, never partial results. -/
theorem saga_C5 {Model Tokenizer : Type}
    (load : String → Except String (Model × Tokenizer)) (query : String)
    (documents : List String) (model_path : String) (top_k : Int)
    (e : String) (hload : load model_path = .error e) :
    load_model load model_path
        = .error ("Failed to load model from " ++ model_path ++ ": " ++ e)
      ∧ rerank_documents load query documents model_path top_k
        = .error ("Reranking failed: "
            ++ ("Failed to load model from " ++ model_path ++ ": " ++ e)) := by
  constructor
  · simp [load_model, hload]
  · simp [rerank_documents, load_model, hload]

/-- C5 witness: a load that raises `"boom"` at path `"m.bin"`. -/
theorem saga_C5_witness :
    load_model (fun _ => (Except.error "boom" : Except String (Unit × Unit))) "m.bin"
        = .error ("Failed to load model from " ++ "m.bin" ++ ": " ++ "boom")
      ∧ rerank_documents (fun _ => (Except.error "boom" : Except String (Unit × Unit)))
          "q" ["d"] "m.bin" 10
        = .error ("Reranking failed: "
            ++ ("Failed to load model from " ++ "m.bin" ++ ": " ++ "boom")) :=
  saga_C5 (fun _ => Except.error "boom") "q" ["d"] "m.bin" 10 "boom" rfl

/-- C6: the loaded handles are dead for scoring — any two successful loads
(of any handle types and values) give identical reranking output for the
same query, documents and `top_k`. -/
theorem saga_C6 {M₁ T₁ M₂ T₂ : Type}
    (load₁ : String → Except String (M₁ × T₁))
    (load₂ : String → Except String (M₂ × T₂))
    (query : String) (documents : List String) (model_path : String)
    (top_k : Int) (mt₁ : M₁ × T₁) (mt₂ : M₂ × T₂)
    (h₁ : load₁ model_path = .ok mt₁) (h₂ : load₂ model_path = .ok mt₂) :
    rerank_documents load₁ query documents model_path top_k
      = rerank_documents load₂ query documents model_path top_k := by
  rw [rerank_documents_ok load₁ query documents model_path top_k mt₁ h₁,
    rerank_documents_ok load₂ query documents model_path top_k mt₂ h₂]

/-- C6 witness: two loads returning different handle values (and types)
produce the same output. -/
theorem saga_C6_witness :
    rerank_documents (fun _ => (Except.ok (0, 1) : Except String (Nat × Nat)))
        "apple banana" ["apple banana cherry", "cherry date", "apple"] "model.bin" 2
      = rerank_documents (fun _ => (Except.ok ((), "tok") : Except String (Unit × String)))
        "apple banana" ["apple banana cherry", "cherry date", "apple"] "model.bin" 2 :=
  saga_C6 (fun _ => Except.ok (0, 1)) (fun _ => Except.ok ((), "tok"))
    "apple banana" ["apple banana cherry", "cherry date", "apple"] "model.bin" 2
    (0, 1) ((), "tok") rfl rfl

/-- C7: when `--documents` decodes to a JSON value that is not an array,
`main` prints nothing on stdout, prints to stderr the single JSON error
object whose message says documents must be a JSON array, and exits with
status 1. -/
theorem saga_C7 {Model Tokenizer : Type}
    (load : String → Except String (Model × Tokenizer))
    (query model_path : String) (top_k : Int) (elemErr : String)
    (v : Json) (hv : v.isArr = false) :
    main_logic load query model_path top_k (.ok v) elemErr
        = .failure "Documents must be a JSON array"
      ∧ (main_logic load query model_path top_k (.ok v) elemErr).stdoutOf = none
      ∧ (main_logic load query model_path top_k (.ok v) elemErr).stderrOf
          = some "Documents must be a JSON array"
      ∧ (main_logic load query model_path top_k (.ok v) elemErr).exitCodeOf = 1 := by
  have h : main_logic load query model_path top_k (.ok v) elemErr
      = .failure "Documents must be a JSON array" := by
    cases v <;> first
      | rfl
      | (exfalso; simp [Json.isArr] at hv)
  refine ⟨h, ?_, ?_, ?_⟩ <;> rw [h] <;> rfl

/-- C7 witness: the decoded value `\x7b\x7d` (an empty JSON object, as in the
spec scenario `--documents "\x7b\x7d"`). -/
theorem saga_C7_witness :
    main_logic (fun _ => (Except.ok ((), ()) : Except String (Unit × Unit)))
        "q" "model.bin" 10 (.ok (Json.obj [])) "attr"
        = .failure "Documents must be a JSON array"
      ∧ (main_logic (fun _ => (Except.ok ((), ()) : Except String (Unit × Unit)))
          "q" "model.bin" 10 (.ok (Json.obj [])) "attr").stdoutOf = none
      ∧ (main_logic (fun _ => (Except.ok ((), ()) : Except String (Unit × Unit)))
          "q" "model.bin" 10 (.ok (Json.obj [])) "attr").stderrOf
          = some "Documents must be a JSON array"
      ∧ (main_logic (fun _ => (Except.ok ((), ()) : Except String (Unit × Unit)))
          "q" "model.bin" 10 (.ok (Json.obj [])) "attr").exitCodeOf = 1 :=
  saga_C7 (fun _ => Except.ok ((), ())) "q" "model.bin" 10 "attr"
    (Json.obj []) rfl

end Saga
